import Mathlib

/-!
# Verification of the kannader SMTP server core

Shallow embedding, in Lean 4, of the parts of the kannader repository that
the specification's claims are about:

* `smtp-queue-fs/src/lib.rs` — the on-disk mail queue (`FsStorage`,
  `FsEnqueuer::commit`, `scan_folder`/`scan_queue`, `reschedule`,
  `send_start`/`send_cancel`/`send_done`/`drop`, `cleanup`);
* `smtp-client/src/lib.rs` — `read_reply` buffer management,
  `TransportError::severity`, `Client::connect_to_mx`;
* `smtp-server/src/interact.rs` — the per-line SMTP session step
  `handle_line`.

The filesystem is modelled as explicit association-list directories; every
syscall the Rust code performs (`openat` rename, `symlink`, `remove_file`,
`remove_dir`, `read_link`, directory listing) becomes a pure update of that
state, with the same error discipline (`NotFound` special-cases, ignored
errors under `let _ =`, `rmdir` failing on non-empty directories).
Serialized JSON file contents are modelled as the serialized values
themselves, i.e. the serde round-trip `from_reader ∘ to_writer = id` is
assumed.  Fallible I/O and randomness (fresh UUIDs, `SliceRandom::shuffle`,
network reads) are passed in as explicit parameters.
-/

namespace Kannader

/-! ## Association lists

Directories are finite maps from file names to entries.  We use
association lists whose update operation removes every binding of the key
first, so lookups never depend on duplicate handling. -/

/-- Lookup of a key in an association list (first binding wins). -/
def alookup [DecidableEq κ] (l : List (κ × α)) (k : κ) : Option α :=
  match l with
  | [] => none
  | (k', v) :: t => if k' = k then some v else alookup t k

/-- Remove every binding of a key. -/
def aerase [DecidableEq κ] (l : List (κ × α)) (k : κ) : List (κ × α) :=
  match l with
  | [] => []
  | (k', v) :: t => if k' = k then aerase t k else (k', v) :: aerase t k

/-- Set a key to a value (replacing any previous binding). -/
def aset [DecidableEq κ] (l : List (κ × α)) (k : κ) (v : α) : List (κ × α) :=
  (k, v) :: aerase l k

/-! ## The on-disk data model of `smtp-queue-fs`

Constants from `smtp-queue-fs/src/lib.rs`. -/

def DATA_DIR : String := "data"
def QUEUE_DIR : String := "queue"
def INFLIGHT_DIR : String := "inflight"
def CLEANUP_DIR : String := "cleanup"
def DATA_DIR_FROM_OTHER_QUEUE : List String := ["..", "data"]
def CONTENTS_FILE : String := "contents"
def SCHEDULE_FILE : String := "schedule"
def TMP_SCHEDULE_FILE_PREFIX : String := "schedule."

/-- Modelled from the spec: `ScheduleInfo` lives in the `smtp-queue` crate
(not under `src/`); per the spec a `schedule` file holds the next-attempt
time and the last-attempt time.  Timestamps are abstracted to integers. -/
structure ScheduleInfo where
  nextAttempt : Int
  lastAttempt : Option Int
  deriving DecidableEq, Repr

/-- Modelled from the spec: the per-destination `metadata` file (envelope
sender, single recipient, user metadata, serialized).  Its contents are
never inspected by the code under verification, so it is kept opaque. -/
def MetadataVal := String
  deriving DecidableEq, Repr

/-- A destination sub-directory `data/<content-uuid>/<dest-uuid>/`:
the `metadata` file, the `schedule` file, and any `schedule.<uuid>`
temporary files (content `none` while created-but-not-yet-written). -/
structure DestDir where
  metadata : Option MetadataVal
  schedule : Option ScheduleInfo
  tmp : List (String × Option ScheduleInfo)
  deriving DecidableEq, Repr

/-- A content directory `data/<content-uuid>/`: the shared `contents` file
(presence only; the body bytes are irrelevant to the claims) and the
destination sub-directories. -/
structure ContentDir where
  contents : Bool
  dests : List (String × DestDir)
  deriving DecidableEq, Repr

/-- A symlink target, as path components (always `../data/<mail>/<dest>`
when created by this code). -/
abbrev LinkTarget := List String

/-- The spool: the four sibling directories.  `queue`, `inflight` and
`cleanup` contain only symlinks (name ↦ target); `data` contains the
content directories. -/
structure Spool where
  data : List (String × ContentDir)
  queue : List (String × LinkTarget)
  inflight : List (String × LinkTarget)
  cleanup : List (String × LinkTarget)
  deriving DecidableEq, Repr

/-- In-memory handle for a queued destination (`FsQueuedMail`). -/
structure FsQueuedMail where
  id : String
  schedule : ScheduleInfo
  deriving DecidableEq, Repr

/-- In-memory handle for an inflight destination (`FsInflightMail`). -/
structure FsInflightMail where
  id : String
  schedule : ScheduleInfo
  deriving DecidableEq, Repr

/-- In-memory handle for a pending-cleanup destination
(`FsPendingCleanupMail`). -/
structure FsPendingCleanupMail where
  id : String
  deriving DecidableEq, Repr

/-! ## `send_start` / `send_cancel` (claim C5)

`FsStorage::send_start` is `openat::rename(queue, id, inflight, id)`:
on success the handle is converted by `FsQueuedMail::into_inflight`, which
copies `id` and `schedule`; a `NotFound` rename yields `Ok(None)`.
`send_cancel` is the reverse rename with `FsInflightMail::into_queued`. -/

/-- `FsStorage::send_start`. -/
def sendStart (s : Spool) (m : FsQueuedMail) : Spool × Option FsInflightMail :=
  match alookup s.queue m.id with
  | none => (s, none)
  | some tgt =>
    ({ s with queue := aerase s.queue m.id, inflight := aset s.inflight m.id tgt },
     some ⟨m.id, m.schedule⟩)

/-- `FsStorage::send_cancel`. -/
def sendCancel (s : Spool) (m : FsInflightMail) : Spool × Option FsQueuedMail :=
  match alookup s.inflight m.id with
  | none => (s, none)
  | some tgt =>
    ({ s with inflight := aerase s.inflight m.id, queue := aset s.queue m.id tgt },
     some ⟨m.id, m.schedule⟩)

/-! ## Errors of `smtp-queue-fs` (payloads abridged to what the claims need) -/

inductive FsError where
  | flushingMailContents (mailUuid : String)
  | creatingFolderInMail (destId mailUuid : String)
  | openingFolderInMail (destId mailUuid : String)
  | symlinkingIntoQueue (linkName : String)
  | openingFolderInQueue (id : String)
  | creatingFileInMail (name : String)
  | writingJsonFileInMail (name : String)
  | renamingFileInMail (src dst : String)
  | readingLinkInQueue (id : String)
  | removingFileFromMail (name : String)
  | openingParentFromMail (id : String)
  | symlinkPointsToNonDestinationSubfolder (id : String)
  | symlinkDoesNotPointToDataQueue (id : String)
  | removingFolderFromQueue (name : String)
  | listingFolderInQueue (id : String)
  | removingFileFromQueue (id : String)
  deriving DecidableEq, Repr

/-- Resolve a symlink target `../data/<mail>/<dest>` against the spool,
returning the content and destination directories it denotes.  Targets
created by this code always have exactly that four-component shape; any
other shape resolves to nothing (the path does not exist). -/
def resolveTarget (s : Spool) (tgt : LinkTarget) : Option (String × String × ContentDir × DestDir) :=
  match tgt with
  | [up, dataName, mailId, destId] =>
    if up = ".." ∧ dataName = "data" then
      match alookup s.data mailId with
      | none => none
      | some cdir =>
        match alookup cdir.dests destId with
        | none => none
        | some ddir => some (mailId, destId, cdir, ddir)
    else none
  | _ => none

/-- Re-read the `schedule` file of a queued destination the way
`scan_queue` does for `list_queue`: open `queue/<id>/schedule` (which
follows the symlink into the destination directory) and parse it. -/
def readScheduleViaLink (s : Spool) (id : String) : Option ScheduleInfo :=
  match alookup s.queue id with
  | none => none
  | some tgt =>
    match resolveTarget s tgt with
    | none => none
    | some (_, _, _, ddir) => ddir.schedule

/-! ## `enqueue` and `FsEnqueuer::commit` (claims C1, C3)

`FsStorage::enqueue` creates `data/<mail-uuid>/` and the `contents` file
inside it; the body is then streamed through the `AsyncWrite` impl. -/

/-- State effect of `FsStorage::enqueue` for a fresh content uuid. -/
def enqueueSpool (s : Spool) (mailUuid : String) : Spool :=
  { s with data := aset s.data mailUuid ⟨true, []⟩ }

/-- Injected failure points for `make_dest_dir`: its first fallible
syscall (`create_dir`) and its last (`symlink`).  The intermediate
syscalls (creating/writing `schedule` and `metadata`) fail like `symlink`
but with fewer files created; the claims do not need them separately. -/
inductive MkDestFail where
  | createDir
  | symlink
  deriving DecidableEq, Repr

/-- `make_dest_dir` (file `smtp-queue-fs/src/lib.rs`).  Creates
`<dest_id>/` under the content directory with fresh `schedule` and
`metadata` files, then generates a *new* uuid (`linkUuid` here, `dest_uuid`
in the source) and symlinks `queue/<linkUuid>` to
`../data/<mail_uuid>/<dest_id>`, returning `FsQueuedMail` with id
`linkUuid`. -/
def makeDestDir (s : Spool) (mailUuid destId linkUuid : String)
    (meta : MetadataVal) (sched : ScheduleInfo) (failAt : Option MkDestFail) :
    Spool × Except FsError FsQueuedMail :=
  if failAt = some .createDir then
    (s, .error (.creatingFolderInMail destId mailUuid))
  else
    match alookup s.data mailUuid with
    | none => (s, .error (.openingFolderInMail destId mailUuid))
    | some cdir =>
      let ddir : DestDir := { metadata := some meta, schedule := some sched, tmp := [] }
      let s1 := { s with data := aset s.data mailUuid { cdir with dests := aset cdir.dests destId ddir } }
      if failAt = some .symlink then
        (s1, .error (.symlinkingIntoQueue linkUuid))
      else
        let target : LinkTarget := DATA_DIR_FROM_OTHER_QUEUE ++ [mailUuid, destId]
        ({ s1 with queue := aset s1.queue linkUuid target }, .ok ⟨linkUuid, sched⟩)

/-- `cleanup_dest_dir` (commit's per-destination failure cleanup):
remove `metadata` and `schedule` (errors discarded), then `remove_dir` the
destination directory — `rmdir` succeeds only when the directory is now
empty.  It never touches the `queue/` symlink of the destination. -/
def cleanupDestDir (s : Spool) (mailUuid destId : String) : Spool :=
  match alookup s.data mailUuid with
  | none => s
  | some cdir =>
    match alookup cdir.dests destId with
    | none => s
    | some ddir =>
      let ddir1 := { ddir with metadata := none, schedule := none }
      let dests1 := if ddir1.tmp = [] then aerase cdir.dests destId
                    else aset cdir.dests destId ddir1
      { s with data := aset s.data mailUuid { cdir with dests := dests1 } }

/-- `cleanup_contents_dir(queue, mail_uuid, mail_dir)`: removes the
`contents` file from the content directory, then calls
`queue.remove_dir(mail_uuid)` with errors discarded.  The directory handle
`FsEnqueuer::commit` passes as `queue` is the `queue/` symlink directory,
which never contains a directory named `mail_uuid`, so that `rmdir` always
fails and `data/<mail_uuid>/` itself is left in place. -/
def cleanupContentsDir (s : Spool) (mailUuid : String) : Spool :=
  match alookup s.data mailUuid with
  | none => s
  | some cdir => { s with data := aset s.data mailUuid { cdir with contents := false } }

/-- The destination loop of `FsEnqueuer::commit`: each element of `rest`
is `(dest_uuid, link_uuid, metadata, schedule)`; `done` holds the
`dest_uuid`s already created.  On a failure at index `i`, the already
created destination directories are cleaned with `cleanup_dest_dir`, then
`cleanup_contents_dir` runs, and the error is returned. -/
def commitLoop (s : Spool) (mailUuid : String) (done : List String)
    (rest : List (String × String × MetadataVal × ScheduleInfo))
    (failAt : Nat → Option MkDestFail) (i : Nat) (acc : List FsQueuedMail) :
    Spool × Except FsError (List FsQueuedMail) :=
  match rest with
  | [] => (s, .ok acc.reverse)
  | (destId, linkId, meta, sched) :: rest' =>
    match makeDestDir s mailUuid destId linkId meta sched (failAt i) with
    | (s1, .ok qm) => commitLoop s1 mailUuid (done ++ [destId]) rest' failAt (i + 1) (qm :: acc)
    | (s1, .error e) =>
      let s2 := done.foldl (fun st d => cleanupDestDir st mailUuid d) s1
      (cleanupContentsDir s2 mailUuid, .error e)

/-- `FsEnqueuer::commit`.  First flushes the body (`flushOk` injects a
flush failure, which triggers `cleanup_contents_dir` and an error); then
runs the destination loop. -/
def commit (s : Spool) (mailUuid : String) (flushOk : Bool)
    (dests : List (String × String × MetadataVal × ScheduleInfo))
    (failAt : Nat → Option MkDestFail) :
    Spool × Except FsError (List FsQueuedMail) :=
  if flushOk then commitLoop s mailUuid [] dests failAt 0 []
  else (cleanupContentsDir s mailUuid, .error (.flushingMailContents mailUuid))

/-! ## `scan_folder` (claim C2)

`scan_folder(path)` runs `WalkDir::new(path)` and, for every entry that is
a symlink, yields `QueueId::new(p.path().to_str()?)`.  `WalkDir` yields
the root itself (a directory, hence filtered out) and each entry under it
with its path *prefixed by the root*; symlinks are not followed, so each
queue symlink is a single depth-1 entry whose `p.path()` is
`<root>/<file-name>`. -/

def pathJoin (a b : String) : String := a ++ "/" ++ b

/-- The `QueueId`s yielded by `scan_folder` for a directory at `root`
whose symlink entries are `entries` (in walk order). -/
def scanFolderIds (root : String) (entries : List String) : List String :=
  entries.map (pathJoin root)

/-! ## `reschedule` (claims C6, C10) -/

/-- Injected failure points for `FsStorage::reschedule`, one per fallible
step: opening `queue/<id>` (also the shape of a lost link), creating the
temp file, serializing into it, renaming it over `schedule`. -/
inductive RFail where
  | openDir
  | createTmp
  | writeJson
  | renameOver
  deriving DecidableEq, Repr

/-- Filesystem operations performed by `reschedule`, for stating how the
`schedule` file gets replaced.  All three carry the content directory and
destination directory they happen in. -/
inductive FsOp where
  | createFile (mailUuid destId name : String)
  | writeJsonFile (mailUuid destId name : String) (content : ScheduleInfo)
  | renameWithinDir (mailUuid destId src dst : String)
  deriving DecidableEq, Repr

/-- Replace one destination directory inside the spool. -/
def setDestDir (s : Spool) (mailUuid destId : String) (dd : DestDir) : Spool :=
  match alookup s.data mailUuid with
  | none => s
  | some cdir =>
    { s with data := aset s.data mailUuid { cdir with dests := aset cdir.dests destId dd } }

/-- `FsStorage::reschedule`.  The source assigns `mail.schedule = schedule`
*before* entering the blocking I/O closure; then it opens `queue/<id>`
(following the symlink), creates `schedule.<uuid>`, serializes the new
schedule into it, and renames it over `schedule` in the same directory.
Returns the updated handle, the updated spool, the error if any, and the
trace of file operations that completed. -/
def reschedule (s : Spool) (m : FsQueuedMail) (sched : ScheduleInfo) (tmpUuid : String)
    (failAt : Option RFail) : FsQueuedMail × Spool × Option FsError × List FsOp :=
  let m' : FsQueuedMail := { m with schedule := sched }
  if failAt = some .openDir then (m', s, some (.openingFolderInQueue m.id), [])
  else
    match alookup s.queue m.id with
    | none => (m', s, some (.openingFolderInQueue m.id), [])
    | some tgt =>
      match resolveTarget s tgt with
      | none => (m', s, some (.openingFolderInQueue m.id), [])
      | some (mailId, destId, _cdir, ddir) =>
        let tmpName := TMP_SCHEDULE_FILE_PREFIX ++ tmpUuid
        if failAt = some .createTmp then
          (m', s, some (.creatingFileInMail tmpName), [])
        else
          let ddir1 := { ddir with tmp := aset ddir.tmp tmpName none }
          let ops1 := [FsOp.createFile mailId destId tmpName]
          if failAt = some .writeJson then
            (m', setDestDir s mailId destId ddir1, some (.writingJsonFileInMail tmpName), ops1)
          else
            let ddir2 := { ddir with tmp := aset ddir.tmp tmpName (some sched) }
            let ops2 := ops1 ++ [FsOp.writeJsonFile mailId destId tmpName sched]
            if failAt = some .renameOver then
              (m', setDestDir s mailId destId ddir2,
               some (.renamingFileInMail tmpName SCHEDULE_FILE), ops2)
            else
              let ddir3 : DestDir :=
                { metadata := ddir.metadata, schedule := some sched, tmp := aerase ddir.tmp tmpName }
              (m', setDestDir s mailId destId ddir3, none,
               ops2 ++ [FsOp.renameWithinDir mailId destId tmpName SCHEDULE_FILE])

/-! ## `FsStorage::cleanup` (claim C4) -/

/-- `FsStorage::cleanup`.  Follows the source step by step:
`read_link` (`NotFound` → `Ok(false)`); `sub_dir` through the symlink
(`NotFound` → `Ok(false)`); remove `metadata` and `schedule` (`NotFound`
ignored); `remove_dir` the destination directory (`rmdir`, which fails
when the directory still holds temp files); list the content directory and
compute `should_rm_mail_dir ⟺ every entry is named `contents``; if so
remove `contents` and `rmdir` the content directory (via
`strip_prefix("../data")` and `parent()` on the link target); finally
`remove_file` the `cleanup/` symlink, `Ok(true)` on success and
`Ok(false)` if it had vanished. -/
def cleanupOp (s : Spool) (m : FsPendingCleanupMail) : Spool × Except FsError Bool :=
  match alookup s.cleanup m.id with
  | none => (s, .ok false)
  | some dest =>
    match resolveTarget s dest with
    | none => (s, .ok false)
    | some (mailId, destName, cdir, ddir) =>
      let ddir1 := { ddir with metadata := none, schedule := none }
      if ddir1.tmp ≠ [] then
        ({ s with data := aset s.data mailId { cdir with dests := aset cdir.dests destName ddir1 } },
         .error (.removingFolderFromQueue destName))
      else
        let dests1 := aerase cdir.dests destName
        let entries := (if cdir.contents then [CONTENTS_FILE] else []) ++ dests1.map Prod.fst
        if entries.all (fun e => e == CONTENTS_FILE) then
          if dests1 = [] then
            ({ s with data := aerase s.data mailId, cleanup := aerase s.cleanup m.id }, .ok true)
          else
            ({ s with data := aset s.data mailId { contents := false, dests := dests1 } },
             .error (.removingFolderFromQueue mailId))
        else
          ({ s with data := aset s.data mailId { cdir with dests := dests1 },
                    cleanup := aerase s.cleanup m.id }, .ok true)

/-! ## `smtp-client`: transport errors and `read_reply` (claim C7) -/

def RDBUF_SIZE : Nat := 16 * 1024
def MINIMUM_FREE_BUFSPACE : Nat := 128

/-- `TransportError` (payloads abridged: hostnames/ips as strings, replies
as opaque tokens, raw bytes as `List Nat`). -/
inductive TransportError where
  | dnsMx (host : String)
  | hostToTrustDns (host : String)
  | dnsIp (name : String)
  | connecting (ip : String) (port : Nat)
  | receivingReplyBytes
  | timedOutWaitingForReply
  | connectionAborted
  | tooLongReply (bytes : List Nat)
  | syntaxError (bytes : List Nat)
  | timedOutSendingCommand
  | sendingCommand
  | transientMail (reply : Nat)
  | transientMailbox (reply : Nat)
  | transientMailSystem (reply : Nat)
  | permanentMail (reply : Nat)
  | permanentMailbox (reply : Nat)
  | permanentMailSystem (reply : Nat)
  | unexpectedReplyCode (reply : Nat)
  deriving DecidableEq, Repr

inductive TransportErrorSeverity where
  | networkTransient
  | mailTransient
  | mailboxTransient
  | mailSystemTransient
  | mailPermanent
  | mailboxPermanent
  | mailSystemPermanent
  deriving DecidableEq, Repr

/-- `TransportError::severity`, arm for arm. -/
def severity : TransportError → TransportErrorSeverity
  | .dnsMx _ => .networkTransient
  | .hostToTrustDns _ => .networkTransient
  | .dnsIp _ => .networkTransient
  | .connecting _ _ => .networkTransient
  | .receivingReplyBytes => .networkTransient
  | .timedOutWaitingForReply => .networkTransient
  | .connectionAborted => .networkTransient
  | .tooLongReply _ => .networkTransient
  | .syntaxError _ => .mailSystemTransient
  | .timedOutSendingCommand => .networkTransient
  | .sendingCommand => .networkTransient
  | .transientMail _ => .mailTransient
  | .transientMailbox _ => .mailboxTransient
  | .transientMailSystem _ => .mailSystemTransient
  | .permanentMail _ => .mailPermanent
  | .permanentMailbox _ => .mailboxPermanent
  | .permanentMailSystem _ => .mailSystemPermanent
  | .unexpectedReplyCode _ => .networkTransient

/-- Outcome of `Reply::<&str>::parse` on the unhandled slice:
`done reply remLen` is `Ok((rem, reply))` with `rem.len() = remLen`;
`incomplete none` is `Err(Incomplete(Needed::Unknown))`;
`incomplete (some s)` is `Err(Incomplete(Needed::Size(s)))`;
`failed` is any other `Err` (syntax error).  The parser itself lives in
the `smtp-message` crate (not under `src/`), so it is a parameter. -/
inductive ParseOut where
  | done (reply : Nat) (remLen : Nat)
  | incomplete (needed : Option Nat)
  | failed
  deriving DecidableEq, Repr

/-- The state `read_reply` keeps across iterations: the fixed buffer of
`RDBUF_SIZE` bytes is represented by the unhandled region (its content and
its start offset); bytes outside `start..start+unhandled.length` are never
read by the code. -/
structure RBuf where
  start : Nat
  unhandled : List Nat
  deriving DecidableEq, Repr

/-- The `missing` bound computed in the `Incomplete` branch. -/
def missingOf (needed : Option Nat) : Nat :=
  match needed with
  | none => MINIMUM_FREE_BUFSPACE
  | some s => max MINIMUM_FREE_BUFSPACE s

/-- The compaction step of `read_reply`: when the unparsed tail does not
begin at position zero and the free tail space is below `missing`,
`copy_within` moves it to position zero. -/
def compactIfNeeded (st : RBuf) (needed : Option Nat) : RBuf :=
  if st.start ≠ 0 ∧ missingOf needed > RDBUF_SIZE - (st.start + st.unhandled.length)
  then { start := 0, unhandled := st.unhandled }
  else st

inductive ReadResult where
  | ok (reply : Nat) (st : RBuf)
  | err (e : TransportError)
  deriving DecidableEq, Repr

/-- The `loop` of `read_reply`.  `net` is the sequence of byte chunks the
peer will deliver ( `[]` = end of stream, so the next read returns 0);
each `io.read` into the free tail returns the next chunk truncated to the
available space.  `fuel` bounds the number of iterations (the timeout
future in the source plays that role). -/
def readReplyLoop (parse : List Nat → ParseOut) (fuel : Nat) (net : List (List Nat))
    (st : RBuf) : ReadResult :=
  match fuel with
  | 0 => .err .timedOutWaitingForReply
  | Nat.succ fuel' =>
    match parse st.unhandled with
    | .done r remLen =>
      .ok r { start := st.start + (st.unhandled.length - remLen),
              unhandled := st.unhandled.drop (st.unhandled.length - remLen) }
    | .failed => .err (.syntaxError st.unhandled)
    | .incomplete n =>
      let st1 := compactIfNeeded st n
      if st1.start + st1.unhandled.length = RDBUF_SIZE then
        .err (.tooLongReply st1.unhandled)
      else
        match net with
        | [] => .err .connectionAborted
        | c :: rest =>
          let got := c.take (RDBUF_SIZE - (st1.start + st1.unhandled.length))
          if got.length = 0 then .err .connectionAborted
          else readReplyLoop parse fuel' rest { st1 with unhandled := st1.unhandled ++ got }

/-- `read_reply` including its entry step: when the unhandled range is
empty it first reads into the whole buffer, erroring `ConnectionAborted`
on an empty read, before entering the loop. -/
def readReply (parse : List Nat → ParseOut) (fuel : Nat) (net : List (List Nat))
    (st : RBuf) : ReadResult :=
  if st.unhandled.isEmpty then
    match net with
    | [] => .err .connectionAborted
    | c :: rest =>
      let got := c.take RDBUF_SIZE
      if got.length = 0 then .err .connectionAborted
      else readReplyLoop parse fuel rest { start := 0, unhandled := got }
  else readReplyLoop parse fuel net st

/-! ## `Client::connect_to_mx` (claim C8)

DNS, TCP and the RNG are outside the program: the per-exchange connection
attempt (`connect_to_host`: A/AAAA lookup plus TCP connects in
DNS-returned order) is a parameter `conn`, the shuffle of one preference
level (`SliceRandom::shuffle` with `thread_rng`, uniform by that crate's
contract) is a parameter `shuffle`, and the fallback attempt against the
host itself is the parameter `hostSelf` (covering `host.into_name()` and
`connect_to_host(host)`). -/

abbrev MxName := String

/-- One `mx_records.entry(preference).or_insert(vec![]).push(exchange)`
step on the `BTreeMap` (kept as an assoc list sorted by key). -/
def insertRecord (m : List (Nat × List MxName)) (p : Nat) (x : MxName) :
    List (Nat × List MxName) :=
  match m with
  | [] => [(p, [x])]
  | (q, xs) :: t =>
    if p < q then (p, [x]) :: (q, xs) :: t
    else if p = q then (q, xs ++ [x]) :: t
    else (q, xs) :: insertRecord t p x

/-- Build the `BTreeMap<preference, Vec<exchange>>` from the MX lookup
results in DNS-returned order. -/
def groupByPref (rs : List (Nat × MxName)) : List (Nat × List MxName) :=
  rs.foldl (fun m r => insertRecord m r.1 r.2) []

/-- The inner `for mx in mxes` loop: first successful connection returns;
otherwise `first_error = first_error.or(Some(e))`. -/
def tryLevel {E S : Type} (conn : MxName → Except E S) :
    List MxName → Option E → Except (Option E) S
  | [], fe => .error fe
  | mx :: rest, fe =>
    match conn mx with
    | .ok sender => .ok sender
    | .error e => tryLevel conn rest (fe.or (some e))

/-- The outer `for (_, mut mxes) in mx_records` loop, shuffling each
preference level before trying it. -/
def tryGroups {E S : Type} (shuffle : List MxName → List MxName) (conn : MxName → Except E S) :
    List (Nat × List MxName) → Option E → Except (Option E) S
  | [], fe => .error fe
  | (_, mxes) :: t, fe =>
    match tryLevel conn (shuffle mxes) fe with
    | .ok sender => .ok sender
    | .error fe' => tryGroups shuffle conn t fe'

/-- `Client::connect_to_mx`.  Returns `none` for the final
`first_error.unwrap()` panicking (which the source argues is unreachable). -/
def connectToMx {E S : Type} (shuffle : List MxName → List MxName)
    (conn : MxName → Except E S) (hostSelf : Except E S)
    (records : List (Nat × MxName)) : Option (Except E S) :=
  let m := groupByPref records
  if m = [] then some hostSelf
  else
    match tryGroups shuffle conn m none with
    | .ok sender => some (.ok sender)
    | .error (some e) => some (.error e)
    | .error none => none

/-- The order in which `connect_to_mx` attempts exchanges: preference
groups in increasing order, each level shuffled. -/
def attemptOrder (shuffle : List MxName → List MxName)
    (records : List (Nat × MxName)) : List MxName :=
  ((groupByPref records).map (fun g => shuffle g.2)).flatten

/-- Specification-side try: the first successful connection if any,
otherwise the first error encountered. -/
def firstOutcome {E S : Type} (conn : MxName → Except E S) :
    List MxName → Option (Except E S)
  | [] => none
  | x :: t =>
    match conn x with
    | .ok sender => some (.ok sender)
    | .error e =>
      match firstOutcome conn t with
      | some (.ok sender) => some (.ok sender)
      | _ => some (.error e)

/-- The exchanges recorded for preference `p`. -/
def groupVals (m : List (Nat × List MxName)) (p : Nat) : List MxName :=
  match alookup m p with
  | some xs => xs
  | none => []

/-! ## `smtp-server`: `handle_line` (claim C9) -/

/-- A policy decision (`Decision` in `smtp-server`): `Accept`, or
`Reject(Refusal { code, msg })`. -/
inductive Decision where
  | accept
  | reject (code : Nat) (msg : String)
  deriving DecidableEq, Repr

/-- `MailMetadata`: the mail-scoped state, existing between an accepted
`MAIL FROM` and the end of `DATA`. -/
structure SMailMeta where
  user : Nat
  fromAddr : Option String
  rcptTo : List String
  deriving DecidableEq, Repr

/-- The `Config` policy callbacks `handle_line` consults, as oracles.
Each filter takes its argument and the metadata by `&mut`, so it returns
the (possibly updated) values together with the decision.
`handleMailDecision` is the post-data hook's decision after the payload
phase has been streamed. -/
structure SCfg where
  newMailUser : Nat
  filterFrom : Option String → SMailMeta → Decision × Option String × SMailMeta
  filterTo : String → SMailMeta → Decision × String × SMailMeta
  filterData : SMailMeta → Decision × SMailMeta
  handleMailDecision : SMailMeta → Decision

/-- The replies `handle_line` can send, one per distinct `cfg.*()` call
site, plus relayed rejections. -/
inductive SReply where
  | mailOkay
  | alreadyInMail
  | rcptOkay
  | rcptBeforeMail
  | dataOkay
  | mailAccepted
  | dataBeforeRcpt
  | dataBeforeMail
  | commandUnimplemented
  | commandUnrecognized
  | rejection (code : Nat) (msg : String)
  deriving DecidableEq, Repr

/-- Modelled from the spec: the reply texts and codes come from the
`Config` trait defaults (`smtp-server/src/config.rs`, not under `src/`);
per spec §4.2, `DATA` from the wrong state is answered `503`
(distinguishing "no MAIL" from "no RCPT"), accepted steps `250`/`354`,
unimplemented commands `502`, unparseable ones `500`. -/
def replyCode : SReply → Nat
  | .mailOkay => 250
  | .alreadyInMail => 503
  | .rcptOkay => 250
  | .rcptBeforeMail => 503
  | .dataOkay => 354
  | .mailAccepted => 250
  | .dataBeforeRcpt => 503
  | .dataBeforeMail => 503
  | .commandUnimplemented => 502
  | .commandUnrecognized => 500
  | .rejection c _ => c

/-- The result of `Command::parse` on one line, restricted to the arms
`handle_line` distinguishes. -/
inductive SCommand where
  | mail (fromAddr : Option String)
  | rcpt (rcptTo : String)
  | data
  | other
  | unparseable
  deriving DecidableEq, Repr

/-- `handle_line` (file `smtp-server/src/interact.rs`): one command of the
session loop, mapping the mail-scoped state and the command to the new
state and the replies sent.  In the `DATA` branch the source `take()`s the
state, restores it on "no recipient" and on a `filter_data` rejection, and
leaves it cleared after the payload phase whatever the post-data hook
decides. -/
def handleLine (cfg : SCfg) (st : Option SMailMeta) (cmd : SCommand) :
    Option SMailMeta × List SReply :=
  match cmd with
  | .mail f =>
    match st with
    | some m => (some m, [.alreadyInMail])
    | none =>
      let m0 : SMailMeta := { user := cfg.newMailUser, fromAddr := none, rcptTo := [] }
      match cfg.filterFrom f m0 with
      | (.accept, f1, m1) => (some { m1 with fromAddr := f1 }, [.mailOkay])
      | (.reject c msg, _, _) => (none, [.rejection c msg])
  | .rcpt t =>
    match st with
    | none => (none, [.rcptBeforeMail])
    | some m =>
      match cfg.filterTo t m with
      | (.accept, t1, m1) => (some { m1 with rcptTo := m1.rcptTo ++ [t1] }, [.rcptOkay])
      | (.reject c msg, _, m1) => (some m1, [.rejection c msg])
  | .data =>
    match st with
    | none => (none, [.dataBeforeMail])
    | some m =>
      if m.rcptTo = [] then (some m, [.dataBeforeRcpt])
      else
        match cfg.filterData m with
        | (.accept, m1) =>
          match cfg.handleMailDecision m1 with
          | .accept => (none, [.dataOkay, .mailAccepted])
          | .reject c msg => (none, [.dataOkay, .rejection c msg])
        | (.reject c msg, m1) => (some m1, [.rejection c msg])
  | .other => (st, [.commandUnimplemented])
  | .unparseable => (st, [.commandUnrecognized])

/-! # Theorems

Helper lemmas first, then one theorem per claim (with a witness when the
theorem has hypotheses). -/

@[simp] theorem alookup_nil [DecidableEq κ] (k : κ) :
    alookup ([] : List (κ × α)) k = none := rfl

@[simp] theorem alookup_cons [DecidableEq κ] (k' : κ) (v : α) (t : List (κ × α)) (k : κ) :
    alookup ((k', v) :: t) k = if k' = k then some v else alookup t k := rfl

@[simp] theorem alookup_aerase_self [DecidableEq κ] (l : List (κ × α)) (k : κ) :
    alookup (aerase l k) k = none := by
  induction l with
  | nil => rfl
  | cons p t ih =>
    obtain ⟨k', v⟩ := p
    by_cases h : k' = k
    · simpa [aerase, h] using ih
    · simpa [aerase, h, alookup] using ih

theorem alookup_aerase_ne [DecidableEq κ] (l : List (κ × α)) (k k' : κ) (h : k ≠ k') :
    alookup (aerase l k) k' = alookup l k' := by
  induction l with
  | nil => rfl
  | cons p t ih =>
    obtain ⟨a, v⟩ := p
    by_cases ha : a = k
    · simp [aerase, ha, alookup, h, ih]
    · by_cases ha' : a = k'
      · simp [aerase, ha, alookup, ha', Ne.symm h]
      · simp [aerase, ha, alookup, ha', ih]

@[simp] theorem alookup_aset_self [DecidableEq κ] (l : List (κ × α)) (k : κ) (v : α) :
    alookup (aset l k v) k = some v := by
  simp [aset]

theorem alookup_aset_ne [DecidableEq κ] (l : List (κ × α)) (k k' : κ) (v : α) (h : k ≠ k') :
    alookup (aset l k v) k' = alookup l k' := by
  simp [aset, alookup, h, alookup_aerase_ne l k k' h]

theorem mem_of_mem_aerase [DecidableEq κ] {l : List (κ × α)} {k : κ} {p : κ × α}
    (h : p ∈ aerase l k) : p ∈ l := by
  induction l with
  | nil => simp [aerase] at h
  | cons q t ih =>
    obtain ⟨a, v⟩ := q
    by_cases ha : a = k
    · simp only [aerase, ha, if_true] at h
      exact List.mem_cons_of_mem _ (ih h)
    · simp only [aerase, ha, if_false] at h
      rcases List.mem_cons.mp h with h1 | h2
      · exact h1 ▸ List.mem_cons_self _ _
      · exact List.mem_cons_of_mem _ (ih h2)

/-- C1: the claim says a failed `commit` leaves no destination symlink
visible under `queue/` and removes the content directory.  Evaluating
`FsEnqueuer::commit` at a failing input — two destinations, where creating
the second destination directory fails — shows the opposite: the error is
returned, but the first destination's symlink `queue/la` is still present
(now dangling), and the content directory `data/m` still exists (emptied
but not removed: `cleanup_contents_dir` runs `remove_dir(mail_uuid)` on
the `queue/` directory handle instead of `data/`). -/
theorem commit_failure_leaves_link_and_content_dir :
    (commit (enqueueSpool ⟨[], [], [], []⟩ "m") "m" true
        [("da", "la", "x", ⟨0, none⟩), ("db", "lb", "y", ⟨1, none⟩)]
        (fun i => if i = 1 then some .createDir else none)).2
      = .error (.creatingFolderInMail "db" "m") ∧
    alookup (commit (enqueueSpool ⟨[], [], [], []⟩ "m") "m" true
        [("da", "la", "x", ⟨0, none⟩), ("db", "lb", "y", ⟨1, none⟩)]
        (fun i => if i = 1 then some .createDir else none)).1.queue "la"
      = some ["..", "data", "m", "da"] ∧
    alookup (commit (enqueueSpool ⟨[], [], [], []⟩ "m") "m" true
        [("da", "la", "x", ⟨0, none⟩), ("db", "lb", "y", ⟨1, none⟩)]
        (fun i => if i = 1 then some .createDir else none)).1.data "m"
      = some ⟨false, []⟩ := by
  refine ⟨?_, ?_, ?_⟩ <;> rfl

/-- C2: the claim says the `QueueId` yielded for a symlink is the
symlink's own file name.  `scan_folder` yields `QueueId::new` of the full
walked path `<root>/<file-name>` instead: for a queue directory at
`spool/queue` containing the symlink `d9aeb255`, the yielded id is
`spool/queue/d9aeb255`, not `d9aeb255` (ids produced by `commit` via
`make_dest_dir` are bare uuids, so the two id spaces disagree). -/
theorem scan_folder_yields_full_path :
    scanFolderIds "spool/queue" ["d9aeb255"] = ["spool/queue/d9aeb255"] ∧
    ("spool/queue/d9aeb255" : String) ≠ "d9aeb255" := by
  refine ⟨rfl, ?_⟩
  decide

/-- C3: the claim says the `queue/` symlink is named by the destination's
uuid, with the target's last path component equal to the symlink's own
name.  `make_dest_dir` creates the destination directory under the uuid it
is passed (`"aaa"`) but then generates a second uuid (`"bbb"`) for the
symlink name and the returned `QueueId`: the link `queue/bbb` points to
`../data/m/aaa`, whose last component differs from the link's name. -/
theorem commit_symlink_name_differs_from_dest_dir :
    (makeDestDir (enqueueSpool ⟨[], [], [], []⟩ "m") "m" "aaa" "bbb" "x" ⟨0, none⟩ none).2
      = .ok ⟨"bbb", ⟨0, none⟩⟩ ∧
    alookup (makeDestDir (enqueueSpool ⟨[], [], [], []⟩ "m") "m" "aaa" "bbb" "x"
        ⟨0, none⟩ none).1.queue "bbb"
      = some ["..", "data", "m", "aaa"] ∧
    (["..", "data", "m", "aaa"] : List String).getLast? = some "aaa" ∧
    ("bbb" : String) ≠ "aaa" := by
  refine ⟨rfl, rfl, rfl, ?_⟩
  decide

/-- C5: for a queued destination whose `queue/` symlink exists,
`send_start` succeeds and hands back an inflight handle carrying the same
schedule; `send_cancel` on that handle succeeds, returns a queued handle
with the original schedule, restores the `queue/` symlink (with its
original target, hence the same on-disk `schedule` file), removes the
`inflight/` entry, and leaves `data/` — including every `schedule` file —
untouched. -/
theorem send_start_then_send_cancel_roundtrip
    (s : Spool) (m : FsQueuedMail) (tgt : LinkTarget)
    (h : alookup s.queue m.id = some tgt) :
    (sendStart s m).2 = some ⟨m.id, m.schedule⟩ ∧
    (sendCancel (sendStart s m).1 ⟨m.id, m.schedule⟩).2 = some ⟨m.id, m.schedule⟩ ∧
    alookup (sendCancel (sendStart s m).1 ⟨m.id, m.schedule⟩).1.queue m.id = some tgt ∧
    alookup (sendCancel (sendStart s m).1 ⟨m.id, m.schedule⟩).1.inflight m.id = none ∧
    (sendCancel (sendStart s m).1 ⟨m.id, m.schedule⟩).1.data = s.data := by
  simp [sendStart, h, sendCancel]

/-- Witness for C5 at a concrete spool with one queued destination. -/
theorem send_start_then_send_cancel_roundtrip_witness :
    (sendStart ⟨[], [("i", ["..", "data", "m", "d"])], [], []⟩ ⟨"i", ⟨0, none⟩⟩).2
      = some ⟨"i", ⟨0, none⟩⟩ ∧
    (sendCancel (sendStart ⟨[], [("i", ["..", "data", "m", "d"])], [], []⟩
        ⟨"i", ⟨0, none⟩⟩).1 ⟨"i", ⟨0, none⟩⟩).2 = some ⟨"i", ⟨0, none⟩⟩ ∧
    alookup (sendCancel (sendStart ⟨[], [("i", ["..", "data", "m", "d"])], [], []⟩
        ⟨"i", ⟨0, none⟩⟩).1 ⟨"i", ⟨0, none⟩⟩).1.queue "i" = some ["..", "data", "m", "d"] ∧
    alookup (sendCancel (sendStart ⟨[], [("i", ["..", "data", "m", "d"])], [], []⟩
        ⟨"i", ⟨0, none⟩⟩).1 ⟨"i", ⟨0, none⟩⟩).1.inflight "i" = none ∧
    (sendCancel (sendStart ⟨[], [("i", ["..", "data", "m", "d"])], [], []⟩
        ⟨"i", ⟨0, none⟩⟩).1 ⟨"i", ⟨0, none⟩⟩).1.data = [] :=
  send_start_then_send_cancel_roundtrip
    ⟨[], [("i", ["..", "data", "m", "d"])], [], []⟩ ⟨"i", ⟨0, none⟩⟩
    ["..", "data", "m", "d"] rfl

/-- C4: for a pending-cleanup destination whose `cleanup/` symlink points
to an existing destination directory (holding no leftover temp files, and
with uuid-named sibling destinations), `cleanup` returns `Ok(true)` having
removed `metadata`, `schedule` and the destination directory; it removes
the `contents` file and the content directory exactly when no other
destination sub-directory remains; and it removes the `cleanup/` symlink.
When the `cleanup/` symlink has already vanished it returns `Ok(false)`
without error and without touching the spool. -/
theorem cleanup_removes_destination_then_content_iff_last
    (s : Spool) (m : FsPendingCleanupMail) (mailId destName : String)
    (cdir : ContentDir) (ddir : DestDir)
    (hlink : alookup s.cleanup m.id = some ["..", "data", mailId, destName])
    (hdata : alookup s.data mailId = some cdir)
    (hdest : alookup cdir.dests destName = some ddir)
    (htmp : ddir.tmp = [])
    (hnames : ∀ p ∈ cdir.dests, p.1 ≠ CONTENTS_FILE) :
    cleanupOp s m =
      ({ s with
          data := if aerase cdir.dests destName = []
                  then aerase s.data mailId
                  else aset s.data mailId { cdir with dests := aerase cdir.dests destName },
          cleanup := aerase s.cleanup m.id }, .ok true) ∧
    (∀ (s0 : Spool) (m0 : FsPendingCleanupMail),
        alookup s0.cleanup m0.id = none → cleanupOp s0 m0 = (s0, .ok false)) := by
  constructor
  · have hres : resolveTarget s ["..", "data", mailId, destName]
        = some (mailId, destName, cdir, ddir) := by
      simp [resolveTarget, hdata, hdest]
    by_cases hempty : aerase cdir.dests destName = []
    · cases hc : cdir.contents <;>
        simp [cleanupOp, hlink, hres, htmp, hempty, hc, CONTENTS_FILE]
    · obtain ⟨p, hp⟩ := List.exists_mem_of_ne_nil _ hempty
      have hpname : p.1 ≠ CONTENTS_FILE := hnames p (mem_of_mem_aerase hp)
      have hall : (((if cdir.contents then [CONTENTS_FILE] else []) ++
          (aerase cdir.dests destName).map Prod.fst).all (fun e => e == CONTENTS_FILE))
          = false := by
        rw [List.all_eq_false]
        refine ⟨p.1, List.mem_append_right _ (List.mem_map_of_mem _ hp), ?_⟩
        simpa using hpname
      simp [cleanupOp, hlink, hres, htmp, hempty, hall]
  · intro s0 m0 h0
    simp [cleanupOp, h0]

/-- Witness for C4: a spool with two destinations `a`, `b` of one message;
cleaning `a` keeps `data/m` (with `b` remaining), removes the `cleanup/`
link, and returns `Ok(true)`. -/
theorem cleanup_removes_destination_then_content_iff_last_witness :
    cleanupOp
      ⟨[("m", ⟨true, [("a", ⟨some "x", some ⟨0, none⟩, []⟩),
                      ("b", ⟨some "y", some ⟨1, none⟩, []⟩)]⟩)],
       [("qb", ["..", "data", "m", "b"])], [],
       [("qa", ["..", "data", "m", "a"])]⟩
      ⟨"qa"⟩ =
      (⟨[("m", ⟨true, [("b", ⟨some "y", some ⟨1, none⟩, []⟩)]⟩)],
        [("qb", ["..", "data", "m", "b"])], [], []⟩, .ok true) := by
  have h := cleanup_removes_destination_then_content_iff_last
    ⟨[("m", ⟨true, [("a", ⟨some "x", some ⟨0, none⟩, []⟩),
                    ("b", ⟨some "y", some ⟨1, none⟩, []⟩)]⟩)],
     [("qb", ["..", "data", "m", "b"])], [],
     [("qa", ["..", "data", "m", "a"])]⟩
    ⟨"qa"⟩ "m" "a"
    ⟨true, [("a", ⟨some "x", some ⟨0, none⟩, []⟩), ("b", ⟨some "y", some ⟨1, none⟩, []⟩)]⟩
    ⟨some "x", some ⟨0, none⟩, []⟩
    rfl rfl rfl rfl (by decide)
  exact h.1.trans rfl

/-- C6: a successful `reschedule(d, s)` reports no error, re-reading `d`'s
`schedule` file the way `list_queue` does yields exactly `s`, and the file
operations performed are precisely: create the temp file
`schedule.<uuid>` in the destination directory, serialize `s` into it, and
rename it over `schedule` within that same directory. -/
theorem reschedule_rereads_new_schedule_via_tmp_rename
    (s : Spool) (m : FsQueuedMail) (sched : ScheduleInfo) (tmpUuid : String)
    (mailId destId : String) (cdir : ContentDir) (ddir : DestDir)
    (hlink : alookup s.queue m.id = some ["..", "data", mailId, destId])
    (hdata : alookup s.data mailId = some cdir)
    (hdest : alookup cdir.dests destId = some ddir) :
    (reschedule s m sched tmpUuid none).2.2.1 = none ∧
    readScheduleViaLink (reschedule s m sched tmpUuid none).2.1 m.id = some sched ∧
    (reschedule s m sched tmpUuid none).2.2.2 =
      [FsOp.createFile mailId destId (TMP_SCHEDULE_FILE_PREFIX ++ tmpUuid),
       FsOp.writeJsonFile mailId destId (TMP_SCHEDULE_FILE_PREFIX ++ tmpUuid) sched,
       FsOp.renameWithinDir mailId destId (TMP_SCHEDULE_FILE_PREFIX ++ tmpUuid) SCHEDULE_FILE] := by
  have hres : resolveTarget s ["..", "data", mailId, destId]
      = some (mailId, destId, cdir, ddir) := by
    simp [resolveTarget, hdata, hdest]
  refine ⟨?_, ?_, ?_⟩
  · simp [reschedule, hlink, hres]
  · simp [reschedule, readScheduleViaLink, setDestDir, resolveTarget, hlink, hdata, hdest]
  · simp [reschedule, hlink, hres]

/-- Witness for C6 at a concrete one-destination spool. -/
theorem reschedule_rereads_new_schedule_via_tmp_rename_witness :
    readScheduleViaLink
      (reschedule
        ⟨[("m", ⟨true, [("d", ⟨some "x", some ⟨0, none⟩, []⟩)]⟩)],
         [("q1", ["..", "data", "m", "d"])], [], []⟩
        ⟨"q1", ⟨0, none⟩⟩ ⟨7, some 3⟩ "u1" none).2.1 "q1" = some ⟨7, some 3⟩ :=
  (reschedule_rereads_new_schedule_via_tmp_rename
    ⟨[("m", ⟨true, [("d", ⟨some "x", some ⟨0, none⟩, []⟩)]⟩)],
     [("q1", ["..", "data", "m", "d"])], [], []⟩
    ⟨"q1", ⟨0, none⟩⟩ ⟨7, some 3⟩ "u1" "m" "d"
    ⟨true, [("d", ⟨some "x", some ⟨0, none⟩, []⟩)]⟩
    ⟨some "x", some ⟨0, none⟩, []⟩ rfl rfl rfl).2.1

/-- C10: `reschedule` assigns the new schedule to the in-memory handle
before any disk I/O, so on every error path (failure to open the
directory, to create the temp file, to serialize, or to rename) the
returned handle reports the new schedule while the on-disk `schedule`
file still holds the old one. -/
theorem reschedule_error_leaves_handle_disk_mismatch
    (s : Spool) (m : FsQueuedMail) (sched old : ScheduleInfo) (tmpUuid : String)
    (f : RFail) (mailId destId : String) (cdir : ContentDir) (ddir : DestDir)
    (hlink : alookup s.queue m.id = some ["..", "data", mailId, destId])
    (hdata : alookup s.data mailId = some cdir)
    (hdest : alookup cdir.dests destId = some ddir)
    (hold : ddir.schedule = some old) :
    ((reschedule s m sched tmpUuid (some f)).2.2.1).isSome = true ∧
    (reschedule s m sched tmpUuid (some f)).1.schedule = sched ∧
    readScheduleViaLink (reschedule s m sched tmpUuid (some f)).2.1 m.id = some old := by
  have hres : resolveTarget s ["..", "data", mailId, destId]
      = some (mailId, destId, cdir, ddir) := by
    simp [resolveTarget, hdata, hdest]
  cases f <;>
    simp [reschedule, hlink, hres, readScheduleViaLink, setDestDir, hdata, hdest, hold,
      resolveTarget]

/-- Witness for C10: rename-over fails; the handle says `⟨7, some 3⟩`
while the `schedule` file still reads `⟨0, none⟩`. -/
theorem reschedule_error_leaves_handle_disk_mismatch_witness :
    (reschedule
        ⟨[("m", ⟨true, [("d", ⟨some "x", some ⟨0, none⟩, []⟩)]⟩)],
         [("q1", ["..", "data", "m", "d"])], [], []⟩
        ⟨"q1", ⟨0, none⟩⟩ ⟨7, some 3⟩ "u1" (some .renameOver)).1.schedule = ⟨7, some 3⟩ ∧
    readScheduleViaLink
      (reschedule
        ⟨[("m", ⟨true, [("d", ⟨some "x", some ⟨0, none⟩, []⟩)]⟩)],
         [("q1", ["..", "data", "m", "d"])], [], []⟩
        ⟨"q1", ⟨0, none⟩⟩ ⟨7, some 3⟩ "u1" (some .renameOver)).2.1 "q1" = some ⟨0, none⟩ :=
  ⟨(reschedule_error_leaves_handle_disk_mismatch
      ⟨[("m", ⟨true, [("d", ⟨some "x", some ⟨0, none⟩, []⟩)]⟩)],
       [("q1", ["..", "data", "m", "d"])], [], []⟩
      ⟨"q1", ⟨0, none⟩⟩ ⟨7, some 3⟩ ⟨0, none⟩ "u1" .renameOver "m" "d"
      ⟨true, [("d", ⟨some "x", some ⟨0, none⟩, []⟩)]⟩
      ⟨some "x", some ⟨0, none⟩, []⟩ rfl rfl rfl rfl).2.1,
   (reschedule_error_leaves_handle_disk_mismatch
      ⟨[("m", ⟨true, [("d", ⟨some "x", some ⟨0, none⟩, []⟩)]⟩)],
       [("q1", ["..", "data", "m", "d"])], [], []⟩
      ⟨"q1", ⟨0, none⟩⟩ ⟨7, some 3⟩ ⟨0, none⟩ "u1" .renameOver "m" "d"
      ⟨true, [("d", ⟨some "x", some ⟨0, none⟩, []⟩)]⟩
      ⟨some "x", some ⟨0, none⟩, []⟩ rfl rfl rfl rfl).2.2⟩

/-- C9: `DATA` is accepted only with a sender set and at least one
accepted recipient.  With no mail-scoped state it answers the
"no MAIL" reply; with a sender but no recipient it answers the distinct
"no RCPT" reply and restores the state unchanged; both are 503-class.
After the payload phase runs (the `filter_data` hook accepted), the
mail-scoped state is cleared whether the post-data hook accepts or
rejects; and with cleared state, `RCPT` and `DATA` are refused, so the
next transaction must begin with `MAIL FROM`. -/
theorem data_needs_sender_and_recipient_and_clears_state
    (cfg : SCfg) (m : SMailMeta) :
    handleLine cfg none .data = (none, [.dataBeforeMail]) ∧
    (∀ t, handleLine cfg none (.rcpt t) = (none, [.rcptBeforeMail])) ∧
    (m.rcptTo = [] → handleLine cfg (some m) .data = (some m, [.dataBeforeRcpt])) ∧
    replyCode .dataBeforeMail = 503 ∧
    replyCode .dataBeforeRcpt = 503 ∧
    SReply.dataBeforeMail ≠ SReply.dataBeforeRcpt ∧
    (∀ m1, m.rcptTo ≠ [] → cfg.filterData m = (.accept, m1) →
      (handleLine cfg (some m) .data).1 = none) := by
  refine ⟨rfl, fun t => rfl, ?_, rfl, rfl, by decide, ?_⟩
  · intro h
    simp [handleLine, h]
  · intro m1 hne hacc
    cases hd : cfg.handleMailDecision m1 <;> simp [handleLine, hne, hacc, hd]

/-- Witness for C9: a constant-accept policy; with one recipient the
state is cleared after `DATA`, with none the "no RCPT" reply restores it. -/
theorem data_needs_sender_and_recipient_and_clears_state_witness :
    handleLine
      ⟨0, fun f mm => (.accept, f, mm), fun t mm => (.accept, t, mm),
       fun mm => (.accept, mm), fun _ => .accept⟩
      (some ⟨0, some "s", []⟩) .data = (some ⟨0, some "s", []⟩, [.dataBeforeRcpt]) ∧
    (handleLine
      ⟨0, fun f mm => (.accept, f, mm), fun t mm => (.accept, t, mm),
       fun mm => (.accept, mm), fun _ => .accept⟩
      (some ⟨0, some "s", ["r"]⟩) .data).1 = none :=
  ⟨(data_needs_sender_and_recipient_and_clears_state
      ⟨0, fun f mm => (.accept, f, mm), fun t mm => (.accept, t, mm),
       fun mm => (.accept, mm), fun _ => .accept⟩
      ⟨0, some "s", []⟩).2.2.1 rfl,
   (data_needs_sender_and_recipient_and_clears_state
      ⟨0, fun f mm => (.accept, f, mm), fun t mm => (.accept, t, mm),
       fun mm => (.accept, mm), fun _ => .accept⟩
      ⟨0, some "s", ["r"]⟩).2.2.2.2.2.2 ⟨0, some "s", ["r"]⟩ (by decide) rfl⟩

theorem missingOf_pos (n : Option Nat) : 0 < missingOf n := by
  cases n with
  | none => decide
  | some s =>
    have : (128 : Nat) ≤ max MINIMUM_FREE_BUFSPACE s := le_max_of_le_left (by decide)
    simpa [missingOf] using lt_of_lt_of_le (by norm_num) this

theorem compactIfNeeded_unhandled (st : RBuf) (n : Option Nat) :
    (compactIfNeeded st n).unhandled = st.unhandled := by
  unfold compactIfNeeded
  split <;> rfl

theorem compactIfNeeded_moves_to_zero (st : RBuf) (n : Option Nat)
    (h1 : st.start ≠ 0)
    (h2 : missingOf n > RDBUF_SIZE - (st.start + st.unhandled.length)) :
    (compactIfNeeded st n).start = 0 := by
  unfold compactIfNeeded
  rw [if_pos ⟨h1, h2⟩]

theorem compactIfNeeded_id (st : RBuf) (n : Option Nat)
    (h : ¬(st.start ≠ 0 ∧ missingOf n > RDBUF_SIZE - (st.start + st.unhandled.length))) :
    compactIfNeeded st n = st := by
  unfold compactIfNeeded
  rw [if_neg h]

/-- If the buffer region is full after the (possible) compaction, the
unhandled region already spanned the whole buffer. -/
theorem compact_full_length (st : RBuf) (n : Option Nat)
    (hfull : (compactIfNeeded st n).start + (compactIfNeeded st n).unhandled.length
      = RDBUF_SIZE) :
    st.unhandled.length = RDBUF_SIZE := by
  by_cases h1 : st.start ≠ 0 ∧ missingOf n > RDBUF_SIZE - (st.start + st.unhandled.length)
  · rw [compactIfNeeded, if_pos h1] at hfull
    simpa using hfull
  · rw [compactIfNeeded_id st n h1] at hfull
    push_neg at h1
    by_cases hs : st.start = 0
    · rw [hs] at hfull
      simpa using hfull
    · have hle := h1 hs
      have hpos := missingOf_pos n
      omega

/-- A `TooLongReply` out of the `read_reply` loop happens only with the
unhandled region spanning the whole `RDBUF_SIZE` buffer while the parser
still reports an incomplete reply. -/
theorem readReplyLoop_tooLongReply (parse : List Nat → ParseOut) :
    ∀ (fuel : Nat) (net : List (List Nat)) (st : RBuf) (l : List Nat),
      readReplyLoop parse fuel net st = .err (.tooLongReply l) →
      l.length = RDBUF_SIZE ∧ ∃ n, parse l = .incomplete n := by
  intro fuel
  induction fuel with
  | zero =>
    intro net st l h
    simp [readReplyLoop] at h
  | succ fuel ih =>
    intro net st l h
    rw [readReplyLoop] at h
    cases hp : parse st.unhandled with
    | done r remLen =>
      rw [hp] at h
      simp at h
    | failed =>
      rw [hp] at h
      simp at h
    | incomplete n =>
      rw [hp] at h
      simp only at h
      by_cases hfull : (compactIfNeeded st n).start + (compactIfNeeded st n).unhandled.length
          = RDBUF_SIZE
      · rw [if_pos hfull] at h
        have hl : l = st.unhandled := by
          have := (ReadResult.err.inj h)
          have := (TransportError.tooLongReply.inj this)
          rw [← this, compactIfNeeded_unhandled]
        subst hl
        exact ⟨compact_full_length st n hfull, n, hp⟩
      · rw [if_neg hfull] at h
        cases net with
        | nil => simp at h
        | cons c rest =>
          dsimp only at h
          by_cases hg : (c.take (RDBUF_SIZE -
              ((compactIfNeeded st n).start + (compactIfNeeded st n).unhandled.length))).length = 0
          · rw [if_pos hg] at h
            simp at h
          · rw [if_neg hg] at h
            exact ih rest _ l h

/-- Conversely: a full buffer on which the parser still needs more input
makes the next loop iteration fail `TooLongReply` with that content. -/
theorem readReplyLoop_full_incomplete (parse : List Nat → ParseOut)
    (net : List (List Nat)) (st : RBuf) (n : Option Nat) (fuel : Nat)
    (hp : parse st.unhandled = .incomplete n)
    (hlen : st.unhandled.length = RDBUF_SIZE) :
    readReplyLoop parse (fuel + 1) net st = .err (.tooLongReply st.unhandled) := by
  rw [readReplyLoop, hp]
  by_cases hs : st.start = 0
  · have hc : compactIfNeeded st n = st := by
      apply compactIfNeeded_id
      simp [hs]
    simp [hc, hs, hlen]
  · have hc : compactIfNeeded st n = ⟨0, st.unhandled⟩ := by
      unfold compactIfNeeded
      rw [if_pos]
      refine ⟨hs, ?_⟩
      have : RDBUF_SIZE - (st.start + st.unhandled.length) = 0 := by omega
      rw [this]
      exact missingOf_pos n
    simp [hc, hlen]

/-- `TooLongReply` through `read_reply`'s entry step as well. -/
theorem readReply_tooLongReply (parse : List Nat → ParseOut)
    (fuel : Nat) (net : List (List Nat)) (st : RBuf) (l : List Nat)
    (h : readReply parse fuel net st = .err (.tooLongReply l)) :
    l.length = RDBUF_SIZE ∧ ∃ n, parse l = .incomplete n := by
  unfold readReply at h
  by_cases he : st.unhandled.isEmpty
  · rw [if_pos he] at h
    cases net with
    | nil => simp at h
    | cons c rest =>
      dsimp only at h
      by_cases hg : (c.take RDBUF_SIZE).length = 0
      · rw [if_pos hg] at h
        simp at h
      · rw [if_neg hg] at h
        exact readReplyLoop_tooLongReply parse fuel rest _ l h
  · rw [if_neg he] at h
    exact readReplyLoop_tooLongReply parse fuel net st l h

/-- C7: `read_reply` works in one fixed `RDBUF_SIZE` buffer and fails
`TooLongReply` exactly when that buffer fills without containing a
complete reply: any `TooLongReply` outcome (of the loop, or of
`read_reply` with its entry read) carries an unhandled region of the full
`RDBUF_SIZE` bytes on which the parser still reports `Incomplete`, and a
full buffer of incomplete input produces exactly that error.  On
incomplete input the buffer is compacted — the unparsed tail is moved to
position zero, preserving its bytes — precisely when the free tail space
is below the needed minimum (`max(MINIMUM_FREE_BUFSPACE, needed)`), and is
left alone otherwise.  A `TooLongReply` is classified `NetworkTransient`
by `TransportError::severity`. -/
theorem read_reply_too_long_reply_discipline (parse : List Nat → ParseOut) :
    (∀ bytes, severity (.tooLongReply bytes) = .networkTransient) ∧
    (∀ fuel net st l, readReplyLoop parse fuel net st = .err (.tooLongReply l) →
        l.length = RDBUF_SIZE ∧ ∃ n, parse l = .incomplete n) ∧
    (∀ fuel net st l, readReply parse fuel net st = .err (.tooLongReply l) →
        l.length = RDBUF_SIZE ∧ ∃ n, parse l = .incomplete n) ∧
    (∀ net st n fuel, parse st.unhandled = .incomplete n →
        st.unhandled.length = RDBUF_SIZE →
        readReplyLoop parse (fuel + 1) net st = .err (.tooLongReply st.unhandled)) ∧
    (∀ st n, (compactIfNeeded st n).unhandled = st.unhandled) ∧
    (∀ st n, st.start ≠ 0 →
        missingOf n > RDBUF_SIZE - (st.start + st.unhandled.length) →
        (compactIfNeeded st n).start = 0) ∧
    (∀ st n, ¬(st.start ≠ 0 ∧ missingOf n > RDBUF_SIZE - (st.start + st.unhandled.length)) →
        compactIfNeeded st n = st) :=
  ⟨fun _ => rfl,
   readReplyLoop_tooLongReply parse,
   fun fuel net st l => readReply_tooLongReply parse fuel net st l,
   fun net st n fuel hp hlen => readReplyLoop_full_incomplete parse net st n fuel hp hlen,
   compactIfNeeded_unhandled,
   compactIfNeeded_moves_to_zero,
   compactIfNeeded_id⟩

/-- Witness for C7: a full 16 KiB buffer of incomplete input errors
`TooLongReply` immediately. -/
theorem read_reply_too_long_reply_discipline_witness :
    readReplyLoop (fun _ => .incomplete none) 1 [] ⟨0, List.replicate RDBUF_SIZE 0⟩ =
      .err (.tooLongReply (List.replicate RDBUF_SIZE 0)) :=
  (read_reply_too_long_reply_discipline (fun _ => .incomplete none)).2.2.2.1
    [] ⟨0, List.replicate RDBUF_SIZE 0⟩ none 0 rfl (by simp)

theorem insertRecord_ne_nil (m : List (Nat × List MxName)) (p : Nat) (x : MxName) :
    insertRecord m p x ≠ [] := by
  cases m with
  | nil => simp [insertRecord]
  | cons q t =>
    obtain ⟨a, xs⟩ := q
    by_cases h1 : p < a
    · simp [insertRecord, h1]
    · by_cases h2 : p = a
      · simp [insertRecord, h1, h2]
      · simp [insertRecord, h1, h2]

theorem groupByPref_foldl_ne_nil :
    ∀ (rs : List (Nat × MxName)) (acc : List (Nat × List MxName)), acc ≠ [] →
      rs.foldl (fun m r => insertRecord m r.1 r.2) acc ≠ [] := by
  intro rs
  induction rs with
  | nil =>
    intro acc h
    simpa using h
  | cons r t ih =>
    intro acc _
    simpa [List.foldl_cons] using ih _ (insertRecord_ne_nil acc r.1 r.2)

theorem groupByPref_eq_nil_iff (rs : List (Nat × MxName)) :
    groupByPref rs = [] ↔ rs = [] := by
  constructor
  · intro h
    cases rs with
    | nil => rfl
    | cons r t =>
      rw [groupByPref, List.foldl_cons] at h
      exact absurd h (groupByPref_foldl_ne_nil t _ (insertRecord_ne_nil [] r.1 r.2))
  · intro h
    subst h
    rfl

theorem insertRecord_keys (m : List (Nat × List MxName)) (p : Nat) (x : MxName) :
    ∀ b ∈ insertRecord m p x, b.1 = p ∨ ∃ c ∈ m, b.1 = c.1 := by
  induction m with
  | nil =>
    intro b hb
    simp only [insertRecord, List.mem_singleton] at hb
    left
    rw [hb]
  | cons q t ih =>
    obtain ⟨a, xs⟩ := q
    intro b hb
    by_cases h1 : p < a
    · simp only [insertRecord, if_pos h1] at hb
      rcases List.mem_cons.mp hb with h | h
      · left
        rw [h]
      · rcases List.mem_cons.mp h with h' | h'
        · exact Or.inr ⟨(a, xs), List.mem_cons_self _ _, by rw [h']⟩
        · exact Or.inr ⟨b, List.mem_cons_of_mem _ h', rfl⟩
    · by_cases h2 : p = a
      · simp only [insertRecord, if_neg h1, if_pos h2] at hb
        rcases List.mem_cons.mp hb with h | h
        · exact Or.inr ⟨(a, xs), List.mem_cons_self _ _, by rw [h]⟩
        · exact Or.inr ⟨b, List.mem_cons_of_mem _ h, rfl⟩
      · simp only [insertRecord, if_neg h1, if_neg h2] at hb
        rcases List.mem_cons.mp hb with h | h
        · exact Or.inr ⟨(a, xs), List.mem_cons_self _ _, by rw [h]⟩
        · rcases ih b h with h' | ⟨c, hc, he⟩
          · exact Or.inl h'
          · exact Or.inr ⟨c, List.mem_cons_of_mem _ hc, he⟩

theorem insertRecord_pairwise (m : List (Nat × List MxName)) (p : Nat) (x : MxName)
    (h : List.Pairwise (fun a b => a.1 < b.1) m) :
    List.Pairwise (fun a b => a.1 < b.1) (insertRecord m p x) := by
  induction m with
  | nil => simp [insertRecord]
  | cons q t ih =>
    obtain ⟨a, xs⟩ := q
    rcases List.pairwise_cons.mp h with ⟨hhead, htail⟩
    by_cases h1 : p < a
    · simp only [insertRecord, if_pos h1]
      refine List.pairwise_cons.mpr ⟨?_, h⟩
      intro b hb
      rcases List.mem_cons.mp hb with hb' | hb'
      · rw [hb']
        exact h1
      · exact lt_trans h1 (hhead b hb')
    · by_cases h2 : p = a
      · simp only [insertRecord, if_neg h1, if_pos h2]
        exact List.pairwise_cons.mpr ⟨fun b hb => hhead b hb, htail⟩
      · simp only [insertRecord, if_neg h1, if_neg h2]
        refine List.pairwise_cons.mpr ⟨?_, ih htail⟩
        intro b hb
        rcases insertRecord_keys t p x b hb with hk | ⟨c, hc, he⟩
        · rw [hk]
          omega
        · rw [he]
          exact hhead c hc

theorem groupByPref_pairwise (rs : List (Nat × MxName)) :
    List.Pairwise (fun a b => a.1 < b.1) (groupByPref rs) := by
  have key : ∀ (l : List (Nat × MxName)) (acc : List (Nat × List MxName)),
      List.Pairwise (fun a b => a.1 < b.1) acc →
      List.Pairwise (fun a b => a.1 < b.1)
        (l.foldl (fun m r => insertRecord m r.1 r.2) acc) := by
    intro l
    induction l with
    | nil => intro acc h; exact h
    | cons r t ih =>
      intro acc h
      rw [List.foldl_cons]
      exact ih _ (insertRecord_pairwise acc r.1 r.2 h)
  exact key rs [] List.Pairwise.nil

theorem alookup_sorted_none {α : Type} (l : List (Nat × α)) (q : Nat)
    (h : ∀ b ∈ l, q < b.1) : alookup l q = none := by
  induction l with
  | nil => rfl
  | cons c t ih =>
    obtain ⟨a, v⟩ := c
    have ha : q < a := h (a, v) (List.mem_cons_self _ _)
    have : a ≠ q := by omega
    simp only [alookup_cons, this, if_false]
    exact ih fun b hb => h b (List.mem_cons_of_mem _ hb)

theorem groupVals_insertRecord (m : List (Nat × List MxName)) (p : Nat) (x : MxName) (q : Nat)
    (hm : List.Pairwise (fun a b => a.1 < b.1) m) :
    groupVals (insertRecord m p x) q
      = if p = q then groupVals m q ++ [x] else groupVals m q := by
  induction m with
  | nil =>
    by_cases hpq : p = q <;> simp [insertRecord, groupVals, alookup, hpq]
  | cons c t ih =>
    obtain ⟨a, xs⟩ := c
    rcases List.pairwise_cons.mp hm with ⟨hhead, htail⟩
    by_cases h1 : p < a
    · simp only [insertRecord, if_pos h1]
      by_cases hpq : p = q
      · have hnone : alookup ((a, xs) :: t) q = none := by
          apply alookup_sorted_none
          intro b hb
          rcases List.mem_cons.mp hb with h | h
          · rw [h]
            omega
          · have := hhead b h
            omega
        simp [groupVals, alookup_cons, hpq, hnone]
      · simp [groupVals, alookup_cons, hpq]
    · by_cases h2 : p = a
      · simp only [insertRecord, if_neg h1, if_pos h2]
        by_cases hpq : p = q
        · have haq : a = q := by omega
          simp [groupVals, alookup_cons, hpq, haq]
        · have haq : a ≠ q := by omega
          simp [groupVals, alookup_cons, hpq, haq]
      · simp only [insertRecord, if_neg h1, if_neg h2]
        by_cases haq : a = q
        · have hpq : p ≠ q := by omega
          simp [groupVals, alookup_cons, haq, hpq]
        · simp only [groupVals, alookup_cons, haq, if_false]
          exact ih htail

theorem groupVals_foldl :
    ∀ (rs : List (Nat × MxName)) (acc : List (Nat × List MxName)),
      List.Pairwise (fun a b => a.1 < b.1) acc → ∀ (q : Nat),
      groupVals (rs.foldl (fun m r => insertRecord m r.1 r.2) acc) q
        = groupVals acc q ++ (rs.filter (fun r => r.1 == q)).map Prod.snd := by
  intro rs
  induction rs with
  | nil =>
    intro acc _ q
    simp
  | cons r t ih =>
    intro acc hacc q
    rw [List.foldl_cons, ih _ (insertRecord_pairwise acc r.1 r.2 hacc) q,
      groupVals_insertRecord acc r.1 r.2 q hacc]
    by_cases h : r.1 = q
    · simp [List.filter_cons, h]
    · simp [List.filter_cons, h]

theorem groupByPref_content (rs : List (Nat × MxName)) (q : Nat) :
    groupVals (groupByPref rs) q = (rs.filter (fun r => r.1 == q)).map Prod.snd := by
  have h := groupVals_foldl rs [] List.Pairwise.nil q
  simpa [groupByPref, groupVals] using h

theorem tryLevel_spec {E S : Type} (conn : MxName → Except E S) :
    ∀ (l : List MxName) (fe : Option E),
      tryLevel conn l fe =
        match firstOutcome conn l with
        | some (.ok sender) => .ok sender
        | some (.error e) => .error (fe.or (some e))
        | none => .error fe := by
  intro l
  induction l with
  | nil => intro fe; rfl
  | cons x t ih =>
    intro fe
    simp only [tryLevel, firstOutcome]
    cases hc : conn x with
    | ok s => rfl
    | error e =>
      dsimp only
      rw [ih (fe.or (some e))]
      cases hf : firstOutcome conn t with
      | none => cases fe <;> rfl
      | some r =>
        cases r with
        | ok s => rfl
        | error e' => cases fe <;> rfl

theorem firstOutcome_append {E S : Type} (conn : MxName → Except E S) :
    ∀ (a b : List MxName),
      firstOutcome conn (a ++ b) =
        match firstOutcome conn a with
        | some (.ok s) => some (.ok s)
        | some (.error e) =>
          match firstOutcome conn b with
          | some (.ok s) => some (.ok s)
          | _ => some (.error e)
        | none => firstOutcome conn b := by
  intro a
  induction a with
  | nil => intro b; rfl
  | cons x t ih =>
    intro b
    simp only [List.cons_append, firstOutcome, List.append_eq]
    cases hc : conn x with
    | ok s => rfl
    | error e =>
      dsimp only
      rw [ih b]
      cases hf : firstOutcome conn t with
      | none =>
        cases hb : firstOutcome conn b with
        | none => rfl
        | some r => cases r <;> rfl
      | some r =>
        cases r with
        | ok s => rfl
        | error e' =>
          cases hb : firstOutcome conn b with
          | none => rfl
          | some r' => cases r' <;> rfl

theorem tryGroups_spec {E S : Type} (shuffle : List MxName → List MxName)
    (conn : MxName → Except E S) :
    ∀ (gs : List (Nat × List MxName)) (fe : Option E),
      tryGroups shuffle conn gs fe =
        match firstOutcome conn ((gs.map (fun g => shuffle g.2)).flatten) with
        | some (.ok s) => .ok s
        | some (.error e) => .error (fe.or (some e))
        | none => .error fe := by
  intro gs
  induction gs with
  | nil => intro fe; rfl
  | cons g t ih =>
    intro fe
    obtain ⟨pref, mxes⟩ := g
    simp only [tryGroups, List.map_cons, List.flatten_cons]
    rw [tryLevel_spec conn (shuffle mxes) fe,
      firstOutcome_append conn (shuffle mxes) ((t.map (fun g => shuffle g.2)).flatten)]
    cases h1 : firstOutcome conn (shuffle mxes) with
    | none =>
      dsimp only
      rw [ih fe]
    | some r =>
      cases r with
      | ok s => rfl
      | error e =>
        dsimp only
        rw [ih (fe.or (some e))]
        cases hf : firstOutcome conn ((t.map (fun g => shuffle g.2)).flatten) with
        | none => rfl
        | some r' =>
          cases r' with
          | ok s => rfl
          | error e' => cases fe <;> rfl

/-- C8: `connect_to_mx` with no MX records falls back to the A/AAAA
attempt against the host itself; otherwise, for every shuffle outcome, it
attempts the exchanges in the order "preference groups ascending, each
level shuffled", returns the first successful connection, and when every
attempt fails returns the first error encountered (`firstOutcome`).  The
`BTreeMap` grouping is sound: its keys are strictly increasing and the
exchanges recorded under a preference are exactly the MX records of that
preference in DNS-returned order.  Uniformity of the shuffle itself is the
`rand` crate's contract (`SliceRandom::shuffle`), outside this code; the
theorem quantifies over every possible shuffle outcome. -/
theorem connect_to_mx_order_and_first_error {E S : Type}
    (shuffle : List MxName → List MxName) (conn : MxName → Except E S)
    (hostSelf : Except E S) (records : List (Nat × MxName)) :
    connectToMx shuffle conn hostSelf records =
      (if records = [] then some hostSelf
       else firstOutcome conn (attemptOrder shuffle records)) ∧
    (groupByPref records = [] ↔ records = []) ∧
    List.Pairwise (fun a b => a.1 < b.1) (groupByPref records) ∧
    (∀ p, groupVals (groupByPref records) p
        = (records.filter (fun r => r.1 == p)).map Prod.snd) := by
  refine ⟨?_, groupByPref_eq_nil_iff records, groupByPref_pairwise records,
    groupByPref_content records⟩
  unfold connectToMx attemptOrder
  by_cases h : groupByPref records = []
  · rw [if_pos h, if_pos ((groupByPref_eq_nil_iff records).mp h)]
  · rw [if_neg h, if_neg (fun hr => h ((groupByPref_eq_nil_iff records).mpr hr))]
    rw [tryGroups_spec shuffle conn (groupByPref records) none]
    cases hf : firstOutcome conn (((groupByPref records).map (fun g => shuffle g.2)).flatten) with
    | none => rfl
    | some r => cases r <;> rfl

end Kannader
